import Mathlib

/-!
Shallow embedding of the grit `count lines` pipeline and its result cache
(src/cmd/lines.go and src/cmd/cache.go), together with theorems settling the
behavioural claims about the attribution-and-aggregation pipeline.

Modelling conventions:
* Go `time.Time` values are modelled as a local calendar day index plus the
  number of seconds since local midnight of that day; day 0 is a Sunday, so
  `day % 7` reproduces Go's `Weekday` numbering (Sunday = 0 .. Saturday = 6).
  `AddDate(0, 0, -k)` is day subtraction, `time.Date(Y, M, D, 0, 0, 0, 0, loc)`
  is truncation of the day to midnight, and `Before` is the lexicographic
  strict order.
* The go-git repository service is an external collaborator; it is modelled as
  a partial map from location strings to repositories, each carrying its HEAD
  hash, its local and remote branch references, and the commit log reachable
  from a hash.  Fallible operations return `Option`.
* Go's `regexp` package is an external collaborator; a regex engine is a
  function `String → Option (String → Bool)` (compilation either fails or
  yields a match predicate).
* File-system effects (reading and writing the cache file, printing) are made
  explicit: `runLines` receives the loaded cache as an input and returns the
  cache content that would be written, the printed outcome, and the list of
  path specifications whose history walk was actually started.
-/

namespace Grit

/-- Local time: calendar day index (day 0 is a Sunday) and seconds since
local midnight of that day. -/
structure GTime where
  day : Int
  sec : Int
deriving DecidableEq, Repr

/-- `a.Before(b)` of Go `time.Time`: strict lexicographic order. -/
def GTime.before (a b : GTime) : Bool :=
  decide (a.day < b.day) || (a.day == b.day && decide (a.sec < b.sec))

/-- `now.Sub(b)` in seconds (used for `time.Since(entry.Timestamp)`). -/
def GTime.subSec (a b : GTime) : Int :=
  (a.day - b.day) * 86400 + (a.sec - b.sec)

/-- Go's `Weekday()` under the day-0-is-Sunday convention:
0 = Sunday, 1 = Monday, ..., 6 = Saturday. -/
def weekdayOf (t : GTime) : Int :=
  t.day % 7

/-- Per-file statistics of one commit (go-git `object.FileStat`). -/
structure FileStat where
  name : String
  addition : Int
  deletion : Int
deriving DecidableEq, Repr

/-- A commit record as consumed by the pipeline.  `stats = none` models
`c.Stats()` returning an error. -/
structure Commit where
  authorName : String
  authorEmail : String
  when : GTime
  parentCount : Nat
  stats : Option (List FileStat)

/-- A repository as supplied by the repository service: HEAD hash, local
branch references, remote-tracking references, and the commit log reachable
from a given hash (`none` everywhere models the corresponding go-git error). -/
structure Repo where
  head : Option String
  localBranch : String → Option String
  remoteBranch : String → String → Option String
  log : String → Option (List Commit)

/-- The git world: `git.PlainOpen` as a partial map from locations to
repositories. -/
abbrev GitEnv := String → Option Repo

/-- The `Args` record of a cache entry (src/cmd/cache.go, `CacheEntry.Args`). -/
structure CacheArgs where
  authorRegex : String
  remoteName : String
  filenamesRegex : String
  weekToDate : Bool
deriving DecidableEq, Repr

/-- The `Results` record of a cache entry. -/
structure CacheResults where
  added : Int
  deleted : Int
deriving DecidableEq, Repr

/-- `CacheEntry` of src/cmd/cache.go.  `HeadHashes` (a Go map from path to
commit hash) is modelled as an association list. -/
structure CacheEntry where
  args : CacheArgs
  paths : List String
  headHashes : List (String × String)
  results : CacheResults
  timestamp : GTime
deriving DecidableEq, Repr

/-- `Cache` of src/cmd/cache.go: the ordered entry list, most-recent-last. -/
structure Cache where
  entries : List CacheEntry
deriving DecidableEq, Repr

/-- `maxCacheSize` of src/cmd/cache.go. -/
def maxCacheSize : Nat := 100

/-- The size-limiting step of `saveCache`:
`if len(cache.Entries) > maxCacheSize { cache.Entries = cache.Entries[len(cache.Entries)-maxCacheSize:] }`. -/
def saveCacheTrunc (entries : List CacheEntry) : List CacheEntry :=
  if entries.length > maxCacheSize then
    entries.drop (entries.length - maxCacheSize)
  else
    entries

/-- Go map assignment `m[k] = v` on the association-list model. -/
def hhInsert (m : List (String × String)) (k v : String) : List (String × String) :=
  if m.any (fun p => p.1 == k) then
    m.map (fun p => if p.1 == k then (k, v) else p)
  else
    m ++ [(k, v)]

/-- The per-entry match test of `findMatchingCacheEntry`: all four `Args`
fields equal, path lists of equal length and pairwise equal. -/
def entryMatches (entry : CacheEntry) (args : List String)
    (authorRegex remoteName filenamesRegex : String) (weekToDate : Bool) : Bool :=
  entry.args.authorRegex == authorRegex &&
  entry.args.remoteName == remoteName &&
  entry.args.filenamesRegex == filenamesRegex &&
  entry.args.weekToDate == weekToDate &&
  entry.paths.length == args.length &&
  (List.zip args entry.paths).all (fun p => p.2 == p.1)

/-- `findMatchingCacheEntry` of src/cmd/cache.go: linear scan from the last
(most recent) entry down to the first, returning the first match. -/
def findMatchingCacheEntry (cache : Cache) (args : List String)
    (authorRegex remoteName filenamesRegex : String) (weekToDate : Bool) :
    Option CacheEntry :=
  cache.entries.reverse.find?
    (fun e => entryMatches e args authorRegex remoteName filenamesRegex weekToDate)

/-- `isCacheValid` of src/cmd/cache.go.  Note that it receives the caller's
path list verbatim: each element is opened with `git.PlainOpen` as given and
used as the lookup key into `HeadHashes` as given. -/
def isCacheValid (env : GitEnv) (now : GTime) (entry : CacheEntry)
    (paths : List String) : Bool :=
  if 86400 < GTime.subSec now entry.timestamp then
    false
  else
    paths.all (fun path =>
      match env path with
      | none => false
      | some repo =>
        match repo.head with
        | none => false
        | some h =>
          match entry.headHashes.lookup path with
          | none => false
          | some cachedHash => cachedHash == h)

/-- Splitting a path specification at its last `character-at` (the code's
`strings.LastIndex(pathSpec, "@")`): returns `(path, branch)`, with
`branch = ""` when no such character occurs. -/
def splitAtLastAtChar : List Char → Option (List Char × List Char)
  | [] => none
  | c :: cs =>
    match splitAtLastAtChar cs with
    | some (l, r) => some (c :: l, r)
    | none => if c == '@' then some ([], cs) else none

/-- `path, branch` extraction of src/cmd/lines.go lines 82-87. -/
def splitPathSpec (pathSpec : String) : String × String :=
  match splitAtLastAtChar pathSpec.toList with
  | some (l, r) => (String.mk l, String.mk r)
  | none => (pathSpec, "")

/-- The recency window start (src/cmd/lines.go lines 123-140): start of the
current day, or with `weekToDate` the day `daysToSubtract` days back truncated
to midnight, where `daysToSubtract` is 7 on Sunday and `weekday - 1` otherwise. -/
def windowStart (now : GTime) (weekToDate : Bool) : GTime :=
  if weekToDate then
    let wd := weekdayOf now
    let daysToSubtract : Int := if wd == 0 then 7 else wd - 1
    { day := now.day - daysToSubtract, sec := 0 }
  else
    { day := now.day, sec := 0 }

/-- The author filter line of src/cmd/lines.go:
`!re.MatchString(c.Author.Name) && !re.MatchString(c.Author.Email)`. -/
def authorRejects (re : String → Bool) (c : Commit) : Bool :=
  !(re c.authorName) && !(re c.authorEmail)

/-- The per-file accumulation loop over one commit's stats, with the optional
filename filter. -/
def statAccum (fre : Option (String → Bool)) (acc : Int × Int)
    (ss : List FileStat) : Int × Int :=
  ss.foldl (fun a st =>
    match fre with
    | some fr => if fr st.name then (a.1 + st.addition, a.2 + st.deletion) else a
    | none => (a.1 + st.addition, a.2 + st.deletion)) acc

/-- The body of the `commits.ForEach` callback for one commit: recency cutoff,
merge exclusion, author match, then stat accumulation; the boolean is true
when `c.Stats()` failed (the callback returned an error). -/
def commitStep (re : String → Bool) (fre : Option (String → Bool))
    (startTime : GTime) (c : Commit) (acc : Int × Int) : (Int × Int) × Bool :=
  if c.when.before startTime then (acc, false)
  else if 1 < c.parentCount then (acc, false)
  else if authorRejects re c then (acc, false)
  else
    match c.stats with
    | none => (acc, true)
    | some ss => (statAccum fre acc ss, false)

/-- `commits.ForEach(...)`: fold `commitStep` over the log, aborting at the
first commit whose `Stats()` fails while keeping the totals accumulated so
far (the totals live in outer variables in the Go code). -/
def processCommits (re : String → Bool) (fre : Option (String → Bool))
    (startTime : GTime) : List Commit → Int × Int → (Int × Int) × Bool
  | [], acc => (acc, false)
  | c :: cs, acc =>
    let r := commitStep re fre startTime c acc
    if r.2 then (r.1, true) else processCommits re fre startTime cs r.1

/-- Mutable state of the per-path loop of `runLines`: running totals, the
`headHashes` map, and the trace of path specifications whose history walk
was started (`repo.Log` succeeded). -/
structure LoopState where
  added : Int
  deleted : Int
  headHashes : List (String × String)
  walked : List String
deriving DecidableEq, Repr

/-- One iteration of the per-path loop of `runLines` (lines 80-183): split the
specification, open the repository, resolve HEAD or the (remote) branch,
record the fingerprint, then walk and aggregate; every failure prints an
error and continues with the state reached so far. -/
def processPathSpec (env : GitEnv) (now : GTime) (remoteName : String)
    (weekToDate : Bool) (re : String → Bool) (fre : Option (String → Bool))
    (st : LoopState) (pathSpec : String) : LoopState :=
  let pb := splitPathSpec pathSpec
  match env pb.1 with
  | none => st
  | some repo =>
    let hashOpt :=
      if pb.2 == "" then repo.head
      else if remoteName != "" then repo.remoteBranch remoteName pb.2
      else repo.localBranch pb.2
    match hashOpt with
    | none => st
    | some hash =>
      let st1 : LoopState :=
        ⟨st.added, st.deleted, hhInsert st.headHashes pb.1 hash, st.walked⟩
      let startTime := windowStart now weekToDate
      match repo.log hash with
      | none => st1
      | some commits =>
        let r := processCommits re fre startTime commits (st1.added, st1.deleted)
        ⟨r.1.1, r.1.2, st1.headHashes, st1.walked ++ [pathSpec]⟩

/-- The whole per-path loop, started from zero totals. -/
def runPipeline (env : GitEnv) (now : GTime) (remoteName : String)
    (weekToDate : Bool) (re : String → Bool) (fre : Option (String → Bool))
    (args : List String) : LoopState :=
  args.foldl (processPathSpec env now remoteName weekToDate re fre) ⟨0, 0, [], []⟩

/-- The argument defaulting at the top of `runLines`:
`if len(args) == 0 { args = []string{"./"} }`. -/
def effArgs (args0 : List String) : List String :=
  if args0.isEmpty then ["./"] else args0

/-- The cache-entry literal built at the end of `runLines` (lines 187-209). -/
def mkEntry (authorRegex remoteName filenamesRegex : String) (weekToDate : Bool)
    (args : List String) (st : LoopState) (now : GTime) : CacheEntry :=
  ⟨⟨authorRegex, remoteName, filenamesRegex, weekToDate⟩,
    args, st.headHashes, ⟨st.added, st.deleted⟩, now⟩

/-- The cache-hit test of `runLines` lines 55-59: a found entry counts only if
`isCacheValid` accepts it against the raw argument list. -/
def cacheLookup (env : GitEnv) (now : GTime) (cache : Cache) (args : List String)
    (authorRegex remoteName filenamesRegex : String) (weekToDate : Bool) :
    Option CacheEntry :=
  match findMatchingCacheEntry cache args authorRegex remoteName filenamesRegex weekToDate with
  | some e => if isCacheValid env now e args then some e else none
  | none => none

/-- Compilation of the optional filename pattern (lines 62-69): skipped when
empty, otherwise `none` models `regexp.Compile` failing. -/
def compileFilename (compile : String → Option (String → Bool))
    (filenamesRegex : String) : Option (Option (String → Bool)) :=
  if filenamesRegex == "" then some none
  else (compile filenamesRegex).map some

/-- The printed outcome of one invocation: a cache hit, an aborted run after a
regex compilation error (no aggregate emitted), or a computed aggregate. -/
inductive RunOutcome where
  | cacheHit (added deleted : Int)
  | regexError
  | computed (added deleted : Int)
deriving DecidableEq, Repr

/-- Observable result of one `runLines` invocation: the printed outcome, the
cache content written at the end (`none` when nothing is written), and the
path specifications whose history walk was started. -/
structure RunResult where
  outcome : RunOutcome
  saved : Option Cache
  walked : List String
deriving DecidableEq, Repr

/-- `runLines` of src/cmd/lines.go.  `loadResult` is the outcome of
`loadCache` (`none` models a load error, after which the code continues with
an empty cache); `noCache` is the `--no-cache` flag.  The written cache
content reflects `saveCache`'s size truncation. -/
def runLines (env : GitEnv) (compile : String → Option (String → Bool))
    (now : GTime) (loadResult : Option Cache) (noCache : Bool)
    (args0 : List String) (authorRegex remoteName filenamesRegex : String)
    (weekToDate : Bool) : RunResult :=
  match (if noCache then none
         else cacheLookup env now (loadResult.getD ⟨[]⟩) (effArgs args0)
           authorRegex remoteName filenamesRegex weekToDate) with
  | some e => ⟨RunOutcome.cacheHit e.results.added e.results.deleted, none, []⟩
  | none =>
    match compileFilename compile filenamesRegex with
    | none => ⟨RunOutcome.regexError, none, []⟩
    | some fre =>
      match compile authorRegex with
      | none => ⟨RunOutcome.regexError, none, []⟩
      | some re =>
        ⟨RunOutcome.computed
            (runPipeline env now remoteName weekToDate re fre (effArgs args0)).added
            (runPipeline env now remoteName weekToDate re fre (effArgs args0)).deleted,
         if noCache then none
         else some ⟨saveCacheTrunc ((loadResult.getD ⟨[]⟩).entries ++
           [mkEntry authorRegex remoteName filenamesRegex weekToDate (effArgs args0)
              (runPipeline env now remoteName weekToDate re fre (effArgs args0)) now])⟩,
         (runPipeline env now remoteName weekToDate re fre (effArgs args0)).walked⟩

/-- A regex engine on which every pattern compiles to the match-everything
predicate (used for concrete runs where matching is not at issue). -/
def compAll : String → Option (String → Bool) :=
  fun _ => some (fun _ => true)


/-! Concrete environments used by the counterexample and failing-input
theorems. -/

/-- A repository at location `repo` whose HEAD and local branch `main` both
point at hash `h1`, with an empty reachable log. -/
def repoC1 : Repo :=
  ⟨some "h1",
   fun b => if b == "main" then some "h1" else none,
   fun _ _ => none,
   fun h => if h == "h1" then some [] else none⟩

/-- A world with a single repository, at location `repo`. -/
def envC1 : GitEnv := fun p => if p == "repo" then some repoC1 else none

/-- A fixed current time: a Sunday (day 14), local noon. -/
def nowC1 : GTime := ⟨14, 43200⟩

/-- The cache entry produced by a successful run over the path specification
`repo at main`: fingerprint keyed by the stripped location `repo`. -/
def entryC1 : CacheEntry :=
  ⟨⟨"", "", "", false⟩, ["repo@main"], [("repo", "h1")], ⟨0, 0⟩, nowC1⟩

/-- A world in which no location opens as a repository. -/
def envNone : GitEnv := fun _ => none

/-- Claim C1: the freshness check is claimed to strip a trailing branch
suffix from each path specification before opening the location, so that an
entry produced for `location at branch` can be validated and served.  The
code does not strip: `isCacheValid` receives the raw argument list, opens the
raw string, and uses it as the `HeadHashes` key, while the run stored the
fingerprint under the stripped key.  At the failing input below, a run over
`repo at main` stores the fingerprint under `repo`; the location's current
HEAD still equals that fingerprint, and the entry is found as an exact query
match, yet `isCacheValid` rejects it and the rerun recomputes instead of
serving the hit. -/
theorem c1_isCacheValid_uses_raw_pathspec :
    runLines envC1 compAll nowC1 (some ⟨[]⟩) false ["repo@main"] "" "" "" false
      = ⟨RunOutcome.computed 0 0, some ⟨[entryC1]⟩, ["repo@main"]⟩ ∧
    List.lookup "repo" entryC1.headHashes = some "h1" ∧
    repoC1.head = some "h1" ∧
    findMatchingCacheEntry ⟨[entryC1]⟩ ["repo@main"] "" "" "" false = some entryC1 ∧
    isCacheValid envC1 nowC1 entryC1 ["repo@main"] = false ∧
    (envC1 "repo@main").isNone = true ∧
    (runLines envC1 compAll nowC1 (some ⟨[entryC1]⟩) false ["repo@main"] "" "" "" false).outcome
      = RunOutcome.computed 0 0 := by
  decide

/-- A non-merge commit authored on the Monday six days before `nowC1`. -/
def commitMonday6 : Commit := ⟨"A", "a@x", ⟨8, 3600⟩, 1, some [⟨"f", 2, 1⟩]⟩

/-- A non-merge commit authored on the Sunday seven days before `nowC1`. -/
def commitSunday7 : Commit := ⟨"A", "a@x", ⟨7, 43200⟩, 1, some [⟨"f", 5, 0⟩]⟩

/-- A non-merge commit authored eight days before `nowC1`. -/
def commitSat8 : Commit := ⟨"A", "a@x", ⟨6, 43200⟩, 1, some [⟨"f", 3, 3⟩]⟩

/-- Claim C2: with `weekToDate` and "now" on a Sunday, the window start is
claimed to be local midnight of the preceding Monday, six days earlier.  The
code subtracts 7 days, so the start is midnight of the preceding Sunday: the
claim's two sample points do hold (the Monday-six-days-prior commit is
included, the eight-days-prior commit is excluded), but the start day is a
Sunday, not the Monday one day later, and a commit authored on that preceding
Sunday — which a Monday-midnight window would exclude — passes the cutoff and
contributes. -/
theorem c2_sunday_window_starts_previous_sunday :
    weekdayOf nowC1 = 0 ∧
    windowStart nowC1 true = ⟨7, 0⟩ ∧
    weekdayOf (windowStart nowC1 true) = 0 ∧
    weekdayOf ⟨8, 0⟩ = 1 ∧
    windowStart nowC1 true ≠ ⟨8, 0⟩ ∧
    commitStep (fun _ => true) none (windowStart nowC1 true) commitMonday6 (0, 0)
      = ((2, 1), false) ∧
    commitStep (fun _ => true) none (windowStart nowC1 true) commitSat8 (0, 0)
      = ((0, 0), false) ∧
    GTime.before commitSat8.when (windowStart nowC1 true) = true ∧
    GTime.before commitSunday7.when (windowStart nowC1 true) = false ∧
    commitStep (fun _ => true) none (windowStart nowC1 true) commitSunday7 (0, 0)
      = ((5, 0), false) := by
  decide

/-- Claim C3 counterexample: with caching enabled, a query over the single
location `x` — which fails to open as a repository — still creates and stores
a new cache entry (with an empty fingerprint map), refuting the claim that no
cache entry is written when a referenced location fails. -/
theorem c3_counterexample :
    runLines envNone compAll nowC1 (some ⟨[]⟩) false ["x"] "" "" "" false
      = ⟨RunOutcome.computed 0 0,
         some ⟨[⟨⟨"", "", "", false⟩, ["x"], [], ⟨0, 0⟩, nowC1⟩]⟩, []⟩ := by
  decide

/-- A repository at location `r` with HEAD `h1` and empty reachable log. -/
def repoC4 : Repo :=
  ⟨some "h1", fun _ => none, fun _ _ => none,
   fun h => if h == "h1" then some [] else none⟩

/-- A world with a single repository, at location `r`. -/
def envC4 : GitEnv := fun p => if p == "r" then some repoC4 else none

/-- An older cache entry matching the query exactly and still fresh: its
fingerprint `h1` equals the current HEAD of `r`. -/
def entryOldC4 : CacheEntry :=
  ⟨⟨"", "", "", false⟩, ["r"], [("r", "h1")], ⟨5, 3⟩, nowC1⟩

/-- A newer cache entry matching the same query but stale: its fingerprint
`h2` no longer equals the current HEAD of `r`. -/
def entryNewC4 : CacheEntry :=
  ⟨⟨"", "", "", false⟩, ["r"], [("r", "h2")], ⟨7, 7⟩, nowC1⟩

/-- Claim C4 counterexample: the loaded cache contains an entry
(`entryOldC4`) whose query fields are all exactly equal to the invocation's
and which is valid, yet its stored totals (added 5, deleted 3) are not returned: the scan
only consults the most recent matching entry, which is stale, so the whole
pipeline runs (the history walk of `r` is started) and recomputed totals are
emitted. -/
theorem c4_counterexample :
    entryMatches entryOldC4 ["r"] "" "" "" false = true ∧
    isCacheValid envC4 nowC1 entryOldC4 ["r"] = true ∧
    runLines envC4 compAll nowC1 (some ⟨[entryOldC4, entryNewC4]⟩) false ["r"] "" "" "" false
      = ⟨RunOutcome.computed 0 0,
         some ⟨[entryOldC4, entryNewC4,
                ⟨⟨"", "", "", false⟩, ["r"], [("r", "h1")], ⟨0, 0⟩, nowC1⟩]⟩,
         ["r"]⟩ := by
  decide

/-- A regex engine on which exactly the pattern `(` fails to compile. -/
def compC8 : String → Option (String → Bool) :=
  fun s => if s == "(" then none else some (fun _ => true)

/-- A cache entry whose stored author pattern is the non-compilable `(`. -/
def entryC8 : CacheEntry :=
  ⟨⟨"(", "", "", false⟩, ["r"], [("r", "h1")], ⟨9, 4⟩, nowC1⟩

/-- Claim C8 counterexample: the cache is consulted before either pattern is
compiled, so with a loaded cache holding a fresh matching entry whose stored
author pattern is the non-compilable `(`, an invocation with that same
pattern emits the aggregate the stored totals from the cache instead of aborting. -/
theorem c8_counterexample :
    (compC8 "(").isNone = true ∧
    runLines envC4 compC8 nowC1 (some ⟨[entryC8]⟩) false ["r"] "(" "" "" false
      = ⟨RunOutcome.cacheHit 9 4, none, []⟩ := by
  decide

/-! Shared helper lemmas. -/

/-- The newest element of a save is never truncated away. -/
theorem getLast_saveCacheTrunc (l : List CacheEntry) (e : CacheEntry) :
    (saveCacheTrunc (l ++ [e])).getLast? = some e := by
  unfold saveCacheTrunc
  split
  · have hle : (l ++ [e]).length - maxCacheSize ≤ l.length := by
      simp [maxCacheSize]
    rw [List.drop_append_of_le_length hle, List.getLast?_concat]
  · exact List.getLast?_concat l

/-- A commit passing all three filters contributes exactly its
(filename-filtered) stats. -/
theorem commitStep_accepts (re : String → Bool) (fre : Option (String → Bool))
    (startTime : GTime) (c : Commit) (acc : Int × Int) (ss : List FileStat)
    (hb : GTime.before c.when startTime = false) (hm : c.parentCount ≤ 1)
    (ha : authorRejects re c = false) (hs : c.stats = some ss) :
    commitStep re fre startTime c acc = (statAccum fre acc ss, false) := by
  unfold commitStep
  rw [hb, if_neg (by omega : ¬ 1 < c.parentCount), ha, hs]
  simp

/-- A commit strictly before the window start contributes nothing and raises
no error. -/
theorem commitStep_early (re : String → Bool) (fre : Option (String → Bool))
    (startTime : GTime) (c : Commit) (acc : Int × Int)
    (hb : GTime.before c.when startTime = true) :
    commitStep re fre startTime c acc = (acc, false) := by
  unfold commitStep
  rw [hb]
  simp

/-- When no matching cache entry validates, the hit test comes up empty. -/
theorem cacheLookup_none (env : GitEnv) (now : GTime) (cache : Cache)
    (args : List String) (a rn f : String) (w : Bool)
    (hno : ∀ e, findMatchingCacheEntry cache args a rn f w = some e →
        isCacheValid env now e args = false) :
    cacheLookup env now cache args a rn f w = none := by
  unfold cacheLookup
  cases hx : findMatchingCacheEntry cache args a rn f w with
  | none => rfl
  | some e => simp [hno e hx]

/-! Claim theorems C5, C6, C7, C9 and their witnesses. -/

/-- Claim C5: after every store operation the retained entry count is at most
`maxCacheSize`; when the bound is exceeded exactly the oldest entries are
dropped (the result is a suffix obtained by dropping from the front), and the
newest entry is never evicted. -/
theorem c5_save_bound_and_fifo (entries : List CacheEntry) (e : CacheEntry) :
    (saveCacheTrunc entries).length ≤ maxCacheSize ∧
    (maxCacheSize < entries.length →
      saveCacheTrunc entries = entries.drop (entries.length - maxCacheSize)) ∧
    (saveCacheTrunc (entries ++ [e])).getLast? = some e := by
  refine ⟨?_, ?_, getLast_saveCacheTrunc entries e⟩
  · unfold saveCacheTrunc
    split
    · rw [List.length_drop]
      omega
    · omega
  · intro h
    unfold saveCacheTrunc
    rw [if_pos h]

/-- A list of 101 identical entries, used to exercise the eviction bound. -/
def entriesOverflow : List CacheEntry := List.replicate 101 entryC1

/-- Witness for C5 at a cache exceeding the bound. -/
theorem c5_witness :
    (saveCacheTrunc entriesOverflow).length ≤ maxCacheSize ∧
    saveCacheTrunc entriesOverflow
      = entriesOverflow.drop (entriesOverflow.length - maxCacheSize) ∧
    (saveCacheTrunc (entriesOverflow ++ [entryC1])).getLast? = some entryC1 :=
  ⟨(c5_save_bound_and_fifo entriesOverflow entryC1).1,
   (c5_save_bound_and_fifo entriesOverflow entryC1).2.1 (by decide),
   (c5_save_bound_and_fifo entriesOverflow entryC1).2.2⟩

/-- Claim C6: a commit whose author timestamp equals the window start exactly
passes the recency cutoff (and, passing the remaining filters, contributes
its stats), while a commit timestamped any amount earlier than the window
start contributes nothing. -/
theorem c6_window_boundary (re : String → Bool) (fre : Option (String → Bool))
    (now : GTime) (wtd : Bool) (c : Commit) (acc : Int × Int) (ss : List FileStat)
    (hw : c.when = windowStart now wtd) (hm : c.parentCount ≤ 1)
    (ha : authorRejects re c = false) (hs : c.stats = some ss) :
    GTime.before c.when (windowStart now wtd) = false ∧
    commitStep re fre (windowStart now wtd) c acc = (statAccum fre acc ss, false) ∧
    (∀ c2 acc2, GTime.before c2.when (windowStart now wtd) = true →
      commitStep re fre (windowStart now wtd) c2 acc2 = (acc2, false)) := by
  have hb : GTime.before c.when (windowStart now wtd) = false := by
    rw [hw]
    simp [GTime.before]
  exact ⟨hb, commitStep_accepts re fre _ c acc ss hb hm ha hs,
    fun c2 acc2 h2 => commitStep_early re fre _ c2 acc2 h2⟩

/-- A commit timestamped exactly at the window start boundary. -/
def commitBoundaryW : Commit := ⟨"A", "a@x", ⟨15, 0⟩, 1, some [⟨"f", 4, 2⟩]⟩

/-- A commit timestamped one second before the window start. -/
def commitEarlyW : Commit := ⟨"B", "b@x", ⟨14, 86399⟩, 1, some [⟨"f", 9, 9⟩]⟩

/-- Witness for C6 at a Monday 00:00 boundary with "now" later the same day. -/
theorem c6_witness :
    GTime.before commitBoundaryW.when (windowStart ⟨15, 500⟩ false) = false ∧
    commitStep (fun _ => true) none (windowStart ⟨15, 500⟩ false) commitBoundaryW (0, 0)
      = (statAccum none (0, 0) [⟨"f", 4, 2⟩], false) ∧
    commitStep (fun _ => true) none (windowStart ⟨15, 500⟩ false) commitEarlyW (3, 3)
      = ((3, 3), false) :=
  ⟨(c6_window_boundary (fun _ => true) none ⟨15, 500⟩ false commitBoundaryW (0, 0)
      [⟨"f", 4, 2⟩] (by decide) (by decide) (by decide) (by decide)).1,
   (c6_window_boundary (fun _ => true) none ⟨15, 500⟩ false commitBoundaryW (0, 0)
      [⟨"f", 4, 2⟩] (by decide) (by decide) (by decide) (by decide)).2.1,
   (c6_window_boundary (fun _ => true) none ⟨15, 500⟩ false commitBoundaryW (0, 0)
      [⟨"f", 4, 2⟩] (by decide) (by decide) (by decide) (by decide)).2.2
      commitEarlyW (3, 3) (by decide)⟩

/-- Claim C7: a commit with more than one parent never contributes to the
aggregated totals: deleting it from the walked history leaves the whole
aggregation unchanged, regardless of its author or stats. -/
theorem c7_merge_commits_never_contribute (re : String → Bool)
    (fre : Option (String → Bool)) (startTime : GTime) (c : Commit)
    (h : 1 < c.parentCount) (cs1 cs2 : List Commit) (acc : Int × Int) :
    processCommits re fre startTime (cs1 ++ c :: cs2) acc
      = processCommits re fre startTime (cs1 ++ cs2) acc := by
  induction cs1 generalizing acc with
  | nil =>
    have hstep : commitStep re fre startTime c acc = (acc, false) := by
      unfold commitStep
      split <;> simp [h]
    simp [processCommits, hstep]
  | cons a as ih =>
    simp only [List.cons_append, processCommits]
    split
    · rfl
    · exact ih _

/-- A merge commit (two parents) inside the window, by a matching author. -/
def commitMergeW : Commit := ⟨"A", "a@x", ⟨15, 10⟩, 2, some [⟨"f", 100, 100⟩]⟩

/-- Witness for C7: removing the merge commit from the history leaves the
aggregation over the remaining commits unchanged. -/
theorem c7_witness :
    processCommits (fun _ => true) none ⟨15, 0⟩
        ([commitBoundaryW] ++ commitMergeW :: [commitEarlyW]) (0, 0)
      = processCommits (fun _ => true) none ⟨15, 0⟩
        ([commitBoundaryW] ++ [commitEarlyW]) (0, 0) :=
  c7_merge_commits_never_contribute (fun _ => true) none ⟨15, 0⟩ commitMergeW
    (by decide) [commitBoundaryW] [commitEarlyW] (0, 0)

/-- Claim C9: with the author pattern left at its default empty string, the
pattern compiles (Go's `regexp` compiles the empty pattern to a
match-everything predicate, which is the hypothesis on the engine), the
author filter rejects no commit, every in-window non-merge commit with
readable stats contributes, and a run with both patterns empty never aborts
with a pattern-compilation error. -/
theorem c9_empty_author_pattern (compile : String → Option (String → Bool))
    (hcomp : compile "" = some (fun _ => true)) :
    (compile "").isSome = true ∧
    (∀ c : Commit, authorRejects (fun _ => true) c = false) ∧
    (∀ fre startTime (c : Commit) (acc : Int × Int) ss,
      GTime.before c.when startTime = false → c.parentCount ≤ 1 →
      c.stats = some ss →
      commitStep (fun _ => true) fre startTime c acc = (statAccum fre acc ss, false)) ∧
    (∀ env now loadResult noCache args0 rn wtd,
      (runLines env compile now loadResult noCache args0 "" rn "" wtd).outcome
        ≠ RunOutcome.regexError) := by
  refine ⟨by rw [hcomp]; rfl, fun c => by simp [authorRejects], ?_, ?_⟩
  · intro fre startTime c acc ss hb hm hs
    exact commitStep_accepts _ fre startTime c acc ss hb hm (by simp [authorRejects]) hs
  · intro env now loadResult noCache args0 rn wtd
    unfold runLines
    cases hx : (if noCache then none
        else cacheLookup env now (loadResult.getD ⟨[]⟩) (effArgs args0) "" rn "" wtd) with
    | some e => simp
    | none =>
      have hfc : compileFilename compile "" = some none := rfl
      rw [hfc, hcomp]
      simp

/-- Witness for C9 on the total regex engine. -/
theorem c9_witness :
    (compAll "").isSome = true ∧
    authorRejects (fun _ => true) commitEarlyW = false ∧
    commitStep (fun _ => true) none ⟨14, 0⟩ commitBoundaryW (0, 0)
      = (statAccum none (0, 0) [⟨"f", 4, 2⟩], false) ∧
    (runLines envNone compAll nowC1 (some ⟨[]⟩) false ["x"] "" "" "" false).outcome
      ≠ RunOutcome.regexError :=
  ⟨(c9_empty_author_pattern compAll rfl).1,
   (c9_empty_author_pattern compAll rfl).2.1 commitEarlyW,
   (c9_empty_author_pattern compAll rfl).2.2.1 none ⟨14, 0⟩ commitBoundaryW (0, 0)
      [⟨"f", 4, 2⟩] (by decide) (by decide) (by decide),
   (c9_empty_author_pattern compAll rfl).2.2.2 envNone nowC1 (some ⟨[]⟩) false ["x"] "" false⟩

/-! Amended claim theorems C3, C4, C8 and claim theorem C10. -/

/-- Claim C3, amended: with caching enabled, whenever the run is not served
from the cache and both patterns compile, a new cache entry is unconditionally
appended to the loaded entries and stored (subject only to the FIFO size
truncation) — even when some or all referenced locations failed to open,
resolve, or process (the environment is arbitrary here, including one where
every location fails); prior entries are preserved verbatim, never mutated. -/
theorem c3_entry_stored_regardless_of_failures (env : GitEnv)
    (compile : String → Option (String → Bool)) (now : GTime) (c : Cache)
    (args0 : List String) (a rn f : String) (w : Bool)
    (fre : Option (String → Bool)) (re : String → Bool)
    (hno : ∀ e, findMatchingCacheEntry c (effArgs args0) a rn f w = some e →
        isCacheValid env now e (effArgs args0) = false)
    (hf : compileFilename compile f = some fre)
    (ha : compile a = some re) :
    runLines env compile now (some c) false args0 a rn f w
      = ⟨RunOutcome.computed (runPipeline env now rn w re fre (effArgs args0)).added
           (runPipeline env now rn w re fre (effArgs args0)).deleted,
         some ⟨saveCacheTrunc (c.entries ++
           [mkEntry a rn f w (effArgs args0)
              (runPipeline env now rn w re fre (effArgs args0)) now])⟩,
         (runPipeline env now rn w re fre (effArgs args0)).walked⟩ := by
  have hcl := cacheLookup_none env now c (effArgs args0) a rn f w hno
  unfold runLines
  simp [hcl, hf, ha]

/-- Witness for the amended C3: the single location fails to open, yet the
run stores a cache entry recording the query with empty fingerprints. -/
theorem c3_witness :
    runLines envNone compAll nowC1 (some ⟨[]⟩) false ["y"] "" "" "" false
      = ⟨RunOutcome.computed (runPipeline envNone nowC1 "" false (fun _ => true) none ["y"]).added
           (runPipeline envNone nowC1 "" false (fun _ => true) none ["y"]).deleted,
         some ⟨saveCacheTrunc (Cache.entries ⟨[]⟩ ++
           [mkEntry "" "" "" false ["y"]
              (runPipeline envNone nowC1 "" false (fun _ => true) none ["y"]) nowC1])⟩,
         (runPipeline envNone nowC1 "" false (fun _ => true) none ["y"]).walked⟩ :=
  c3_entry_stored_regardless_of_failures envNone compAll nowC1 ⟨[]⟩ ["y"] "" "" "" false
    none (fun _ => true) (fun _ h => Option.noConfusion h) rfl rfl

/-- Claim C4, amended: with caching enabled, if the most recent entry whose
query fields (author pattern, remote name, filename pattern, weekToDate, and
the ordered path list) are all exactly equal to the invocation's — the entry
delivered by the reverse linear scan — is valid, then its stored totals are
returned verbatim, nothing is written back, and no history walk is started. -/
theorem c4_most_recent_matching_entry_served (env : GitEnv)
    (compile : String → Option (String → Bool)) (now : GTime) (c : Cache)
    (args0 : List String) (a rn f : String) (w : Bool) (e : CacheEntry)
    (hfind : findMatchingCacheEntry c (effArgs args0) a rn f w = some e)
    (hvalid : isCacheValid env now e (effArgs args0) = true) :
    runLines env compile now (some c) false args0 a rn f w
      = ⟨RunOutcome.cacheHit e.results.added e.results.deleted, none, []⟩ := by
  have hcl : cacheLookup env now c (effArgs args0) a rn f w = some e := by
    simp [cacheLookup, hfind, hvalid]
  unfold runLines
  simp [hcl]

/-- Witness for the amended C4: a fresh matching entry is served verbatim. -/
theorem c4_witness :
    runLines envC4 compAll nowC1 (some ⟨[entryOldC4]⟩) false ["r"] "" "" "" false
      = ⟨RunOutcome.cacheHit 5 3, none, []⟩ :=
  c4_most_recent_matching_entry_served envC4 compAll nowC1 ⟨[entryOldC4]⟩ ["r"]
    "" "" "" false entryOldC4 (by decide) (by decide)

/-- Claim C8, amended: if the author pattern or the filename pattern fails to
compile and the run is not already served from the cache (the cache is
consulted before either pattern is compiled), the run aborts: the error is
reported, no aggregate of the form plus-added/minus-deleted is emitted, no
cache entry is written, and no history walk is started. -/
theorem c8_regex_error_aborts (env : GitEnv)
    (compile : String → Option (String → Bool)) (now : GTime) (c : Cache)
    (nc : Bool) (args0 : List String) (a rn f : String) (w : Bool)
    (hno : ∀ e, findMatchingCacheEntry c (effArgs args0) a rn f w = some e →
        isCacheValid env now e (effArgs args0) = false)
    (hbad : compileFilename compile f = none ∨ compile a = none) :
    runLines env compile now (some c) nc args0 a rn f w
      = ⟨RunOutcome.regexError, none, []⟩ := by
  have hcl := cacheLookup_none env now c (effArgs args0) a rn f w hno
  unfold runLines
  rcases hbad with hb | hb
  · cases nc <;> simp [hcl, hb]
  · cases hfc : compileFilename compile f with
    | none => cases nc <;> simp [hcl, hfc]
    | some fre => cases nc <;> simp [hcl, hfc, hb]

/-- A regex engine on which no pattern compiles. -/
def compFail : String → Option (String → Bool) := fun _ => none

/-- Witness for the amended C8: with an empty cache and a non-compiling
author pattern, the run aborts without output, store, or walk. -/
theorem c8_witness :
    runLines envC4 compFail nowC1 (some ⟨[]⟩) false ["r"] "(" "" "" false
      = ⟨RunOutcome.regexError, none, []⟩ :=
  c8_regex_error_aborts envC4 compFail nowC1 ⟨[]⟩ false ["r"] "(" "" "" false
    (fun _ h => Option.noConfusion h) (Or.inr rfl)

/-- Claim C10: an invocation with an empty path-specification list behaves
exactly as one with the single specification dot-slash, and whenever such an
invocation stores a cache entry, the stored path list of the new (last)
entry is exactly the one-element dot-slash list. -/
theorem c10_empty_args_default (env : GitEnv)
    (compile : String → Option (String → Bool)) (now : GTime)
    (loadResult : Option Cache) (nc : Bool) (a rn f : String) (w : Bool) :
    runLines env compile now loadResult nc [] a rn f w
      = runLines env compile now loadResult nc ["./"] a rn f w ∧
    (∀ c2, (runLines env compile now loadResult nc [] a rn f w).saved = some c2 →
      (c2.entries.getLast?).map CacheEntry.paths = some ["./"]) := by
  constructor
  · rfl
  · intro c2 h
    unfold runLines at h
    cases hx : (if nc then none
        else cacheLookup env now (loadResult.getD ⟨[]⟩) (effArgs []) a rn f w) with
    | some e => rw [hx] at h; simp at h
    | none =>
      rw [hx] at h
      cases hfc : compileFilename compile f with
      | none => rw [hfc] at h; simp at h
      | some fre =>
        rw [hfc] at h
        cases hac : compile a with
        | none => rw [hac] at h; simp at h
        | some re =>
          rw [hac] at h
          cases nc with
          | true => simp at h
          | false =>
            simp only [Bool.false_eq_true, if_false, Option.some.injEq] at h
            subst h
            rw [getLast_saveCacheTrunc]
            rfl

/-- Witness for C10: a concrete empty-argument run stores its entry under the
dot-slash path list. -/
theorem c10_witness :
    (runLines envNone compAll nowC1 (some ⟨[]⟩) false [] "" "" "" false).saved
        = some ⟨[mkEntry "" "" "" false ["./"]
            (runPipeline envNone nowC1 "" false (fun _ => true) none ["./"]) nowC1]⟩ ∧
    ((Cache.entries ⟨[mkEntry "" "" "" false ["./"]
        (runPipeline envNone nowC1 "" false (fun _ => true) none ["./"]) nowC1]⟩).getLast?).map
        CacheEntry.paths = some ["./"] :=
  ⟨by decide,
   (c10_empty_args_default envNone compAll nowC1 (some ⟨[]⟩) false "" "" "" false).2
     ⟨[mkEntry "" "" "" false ["./"]
        (runPipeline envNone nowC1 "" false (fun _ => true) none ["./"]) nowC1]⟩ (by decide)⟩

end Grit
